import Mathlib

/-!
Verification development for the ATS nonlinear residual / boundary-condition
core (Richards flow and energy-balance process kernels).

The definitions below are a shallow embedding of the C++ source:

* `updateBoundaryConditions` models `Richards::UpdateBoundaryConditions_`,
  the boundary-condition composer (Dirichlet pressure, prescribed flux with
  the optional freezing gate, seepage-face complementarity, surface coupling
  via head or via flux, and the default zero-flux fallback), applied in the
  order the source executes the passes.
* `applyBoundaryConditionsVec` models `Richards::ApplyBoundaryConditions_`.
* `isAdmissible` models `Richards::IsAdmissible`.
* `setupCoupling` models the coupling-flag slice of
  `Richards::SetupRichardsFlow_`, including its mutual-exclusion assertion.
* `accCells` / `preconAssembly` model the accumulation-derivative diagonal
  update and the assembly decision of `EnergyBase::update_precon`.
* `enorm` models `EnergyBase::enorm`.
* `funStep` / `residualCell` model `EnergyBase::fun`, with the external
  advection and diffusion operators supplied as parameters (they are
  out-of-scope collaborators).

Doubles are modelled as rationals; mesh arrays as functions from entity
index, or as lists where the source iterates over a vector.
-/

namespace ATS

/-- Marker kinds for boundary conditions, as in `OPERATOR_BC_NONE`,
`OPERATOR_BC_DIRICHLET`, `OPERATOR_BC_NEUMANN`. -/
inductive BCKind where
  | none
  | dirichlet
  | neumann
deriving DecidableEq

/-- The per-face marker and value arrays `bc_markers_`, `bc_values_`. -/
structure BCState where
  markers : Nat → BCKind
  values : Nat → ℚ

/-- Write one (kind, value) pair at face `f`, as the assignments
`bc_markers_[f] = k; bc_values_[f] = v;` do. -/
def setBC (s : BCState) (f : Nat) (k : BCKind) (v : ℚ) : BCState :=
  ⟨fun g => if g = f then k else s.markers g,
   fun g => if g = f then v else s.values g⟩

/-- The initialization pass of `UpdateBoundaryConditions_`: all faces get
marker `OPERATOR_BC_NONE` and value `0`. -/
def initBC : BCState :=
  ⟨fun _ => BCKind.none, fun _ => 0⟩

/-- Sequentially apply a list of writes, one per entry, with the face,
kind and value of each write computed from the entry.  Each of the
boundary-function loops of `UpdateBoundaryConditions_` is an instance. -/
def applyWrites (key : α → Nat) (kind : α → BCKind) (val : α → ℚ) :
    BCState → List α → BCState
  | s, [] => s
  | s, e :: t => applyWrites key kind val (setBC s (key e) (kind e) (val e)) t

/-- Inputs to `Richards::UpdateBoundaryConditions_`: the boundary-function
lists (face, value), the mesh queries, the state fields it reads, and the
configuration flags. -/
structure RichardsBCInput where
  nfaces : Nat
  ncellsOfFace : Nat → Nat
  faceArea : Nat → ℚ
  relPerm : Nat → ℚ
  temp : Nat → ℚ
  boundaryPressure : Nat → ℚ
  bcPressure : List (Nat × ℚ)
  bcFlux : List (Nat × ℚ)
  bcSeepage : List (Nat × ℚ)
  infiltrateOnlyIfUnfrozen : Bool
  coupledToSurfaceViaHead : Bool
  coupledToSurfaceViaFlux : Bool
  ncellsSurface : Nat
  surfaceParentFace : Nat → Nat
  surfaceHead : Nat → ℚ
  surfaceFlux : Nat → ℚ

/-- The value a prescribed-flux entry writes: with the freezing-gate option
the flux is used only above 273.15 K and is zero otherwise; without rel perm
(`kr = false`) the flux is divided by the upwinded coefficient when that
coefficient is strictly positive. -/
def fluxBCValue (inp : RichardsBCInput) (kr : Bool) (bc : Nat × ℚ) : ℚ :=
  if inp.infiltrateOnlyIfUnfrozen then
    if inp.temp bc.1 > 27315 / 100 then
      if kr = false ∧ inp.relPerm bc.1 > 0 then bc.2 / inp.relPerm bc.1 else bc.2
    else 0
  else
    if kr = false ∧ inp.relPerm bc.1 > 0 then bc.2 / inp.relPerm bc.1 else bc.2

/-- The Dirichlet pass over `bc_pressure_`. -/
def pressurePhase (inp : RichardsBCInput) (s : BCState) : BCState :=
  applyWrites Prod.fst (fun _ => BCKind.dirichlet) Prod.snd s inp.bcPressure

/-- The prescribed-flux (Neumann) pass over `bc_flux_`. -/
def fluxPhase (inp : RichardsBCInput) (kr : Bool) (s : BCState) : BCState :=
  applyWrites Prod.fst (fun _ => BCKind.neumann) (fluxBCValue inp kr) s inp.bcFlux

/-- The kind a seepage entry writes: Neumann when the current boundary
pressure is strictly below the threshold, Dirichlet otherwise. -/
def seepageKind (inp : RichardsBCInput) (bc : Nat × ℚ) : BCKind :=
  if inp.boundaryPressure bc.1 < bc.2 then BCKind.neumann else BCKind.dirichlet

/-- The value a seepage entry writes: zero flux below the threshold, the
threshold pressure otherwise. -/
def seepageValue (inp : RichardsBCInput) (bc : Nat × ℚ) : ℚ :=
  if inp.boundaryPressure bc.1 < bc.2 then 0 else bc.2

/-- The seepage-face pass over `bc_seepage_`. -/
def seepagePhase (inp : RichardsBCInput) (s : BCState) : BCState :=
  applyWrites Prod.fst (seepageKind inp) (seepageValue inp) s inp.bcSeepage

/-- The coupled-via-head pass: each surface cell writes Dirichlet with the
surface pressure onto its parent subsurface face. -/
def coupledHeadPhase (inp : RichardsBCInput) (s : BCState) : BCState :=
  if inp.coupledToSurfaceViaHead then
    applyWrites inp.surfaceParentFace (fun _ => BCKind.dirichlet) inp.surfaceHead s
      (List.range inp.ncellsSurface)
  else s

/-- The value the coupled-via-flux pass writes for surface cell `c`: the
surface-subsurface flux divided by the subsurface face area, optionally
divided by the upwinded coefficient. -/
def coupledFluxValue (inp : RichardsBCInput) (kr : Bool) (c : Nat) : ℚ :=
  let f := inp.surfaceParentFace c
  let v := inp.surfaceFlux c / inp.faceArea f
  if kr = false ∧ inp.relPerm f > 0 then v / inp.relPerm f else v

/-- The coupled-via-flux pass: each surface cell writes Neumann onto its
parent subsurface face. -/
def coupledFluxPhase (inp : RichardsBCInput) (kr : Bool) (s : BCState) : BCState :=
  if inp.coupledToSurfaceViaFlux then
    applyWrites inp.surfaceParentFace (fun _ => BCKind.neumann) (coupledFluxValue inp kr) s
      (List.range inp.ncellsSurface)
  else s

/-- The default pass body: walk the given faces in order; any face still
marked `none` whose adjacent-cell count is one becomes zero-flux Neumann. -/
def defaultFold (inp : RichardsBCInput) : BCState → List Nat → BCState
  | s, [] => s
  | s, f :: t =>
      defaultFold inp
        (if s.markers f = BCKind.none ∧ inp.ncellsOfFace f = 1
         then setBC s f BCKind.neumann 0 else s) t

/-- The default pass over all owned faces. -/
def defaultPhase (inp : RichardsBCInput) (s : BCState) : BCState :=
  defaultFold inp s (List.range inp.nfaces)

/-- `Richards::UpdateBoundaryConditions_(kr)`: the full composition, in the
order the source executes the passes (later passes overwrite earlier ones). -/
def updateBoundaryConditions (inp : RichardsBCInput) (kr : Bool) : BCState :=
  defaultPhase inp
    (coupledFluxPhase inp kr
      (coupledHeadPhase inp
        (seepagePhase inp
          (fluxPhase inp kr
            (pressurePhase inp initBC)))))

/-- The faces written by the coupled-via-head pass (empty when inactive). -/
def headTargets (inp : RichardsBCInput) : List Nat :=
  if inp.coupledToSurfaceViaHead then
    (List.range inp.ncellsSurface).map inp.surfaceParentFace
  else []

/-- The faces written by the coupled-via-flux pass (empty when inactive). -/
def fluxTargets (inp : RichardsBCInput) : List Nat :=
  if inp.coupledToSurfaceViaFlux then
    (List.range inp.ncellsSurface).map inp.surfaceParentFace
  else []

/-- A solution vector with cell and face components, as the pressure
`CompositeVector` in `Richards::ApplyBoundaryConditions_`. -/
structure PressureVec where
  cell : Nat → ℚ
  face : Nat → ℚ

/-- `Richards::ApplyBoundaryConditions_`: overwrite the face entry with the
composed boundary value at every owned face marked Dirichlet; all other
entries are left as they were. -/
def applyBoundaryConditionsVec (markers : Nat → BCKind) (values : Nat → ℚ)
    (nfaces : Nat) (p : PressureVec) : PressureVec :=
  { cell := p.cell,
    face := fun f =>
      if f < nfaces ∧ markers f = BCKind.dirichlet then values f else p.face f }

/-- The flux-update frequency options of `SetupRichardsFlow_`. -/
inductive UpdateFluxMode where
  | iteration
  | timestep
  | vis
  | never
deriving DecidableEq

/-- Outcome of the coupling slice of setup. -/
structure RichardsCouplingSetup where
  coupledToSurfaceViaFlux : Bool
  coupledToSurfaceViaHead : Bool
  updateFlux : UpdateFluxMode

/-- The coupling slice of `Richards::SetupRichardsFlow_`: reads the two
coupling flags, forces the flux-update mode to per-iteration when coupled
via head, and asserts that the two flags are not both set (a fatal setup
error, modelled as `Except.error`). -/
def setupCoupling (viaFlux viaHead : Bool) (mode : UpdateFluxMode) :
    Except String RichardsCouplingSetup :=
  let mode1 := if viaHead then UpdateFluxMode.iteration else mode
  if viaFlux ∧ viaHead then
    Except.error "coupled to surface via flux and coupled to surface via head may not both be set"
  else
    Except.ok ⟨viaFlux, viaHead, mode1⟩

/-- Fold of `Richards::IsAdmissible` tracking a running minimum and its
index: `if (x < minT) { minT = x; min_i = i; }`. -/
def minScan : List ℚ → Nat → ℚ × Int → ℚ × Int
  | [], _, acc => acc
  | x :: t, i, (m, idx) => minScan t (i + 1) (if x < m then (x, (i : Int)) else (m, idx))

/-- Fold of `Richards::IsAdmissible` tracking a running maximum and its
index: `if (x > maxT) { maxT = x; max_i = i; }`. -/
def maxScan : List ℚ → Nat → ℚ × Int → ℚ × Int
  | [], _, acc => acc
  | x :: t, i, (m, idx) => maxScan t (i + 1) (if x > m then (x, (i : Int)) else (m, idx))

/-- The trial iterate seen by `Richards::IsAdmissible`: pressure on cells
and, when the vector has a face component, on faces. -/
structure AdmissibleInput where
  cells : List ℚ
  faces : Option (List ℚ)

/-- The global minimum tracked by `IsAdmissible` (sentinel `1e15`). -/
def admMin (inp : AdmissibleInput) : ℚ :=
  match inp.faces with
  | some fs => min (minScan inp.cells 0 (10 ^ 15, -1)).1 (minScan fs 0 (10 ^ 15, -1)).1
  | Option.none => (minScan inp.cells 0 (10 ^ 15, -1)).1

/-- The global maximum tracked by `IsAdmissible` (sentinel `-1e15`). -/
def admMax (inp : AdmissibleInput) : ℚ :=
  match inp.faces with
  | some fs => max (maxScan inp.cells 0 (-(10 ^ 15), -1)).1 (maxScan fs 0 (-(10 ^ 15), -1)).1
  | Option.none => (maxScan inp.cells 0 (-(10 ^ 15), -1)).1

/-- `Richards::IsAdmissible`: reject exactly when the tracked minimum is
below `-1e9` or the tracked maximum is above `1e8`. -/
def isAdmissible (inp : AdmissibleInput) : Bool :=
  if admMin inp < -(10 ^ 9) ∨ admMax inp > 10 ^ 8 then false else true

/-- All primary-unknown entries the admissibility check ranges over. -/
def allUnknowns (inp : AdmissibleInput) : List ℚ :=
  inp.cells ++ (inp.faces.getD [])

/-- Inputs to `EnergyBase::update_precon`: the timestep, the accumulation
derivative and companion surface pressure per cell, the atmospheric
pressure, the incoming `Acc_cells` diagonal, and the configuration flags. -/
structure EnergyPreconInput where
  ncells : Nat
  h : ℚ
  de_dT : Nat → ℚ
  surfacePressure : Nat → ℚ
  patm : ℚ
  accInit : Nat → ℚ
  coupledToSubsurfaceViaTemp : Bool
  coupledToSubsurfaceViaFlux : Bool
  assemblePreconditioner : Bool

/-- The diagonal accumulation update of `EnergyBase::update_precon` at cell
`c`: when coupled to the subsurface, `de/dT / h` is added only where the
companion surface pressure is at or above atmospheric; otherwise it is
always added. -/
def accCells (inp : EnergyPreconInput) (c : Nat) : ℚ :=
  if inp.coupledToSubsurfaceViaTemp ∨ inp.coupledToSubsurfaceViaFlux then
    inp.accInit c +
      (if inp.surfacePressure c ≥ inp.patm then inp.de_dT c / inp.h else 0)
  else
    inp.accInit c + inp.de_dT c / inp.h

/-- The three assembly behaviours the tail of `EnergyBase::update_precon`
can take: global assembly alone, global assembly followed by the Schur
complement and preconditioner update, or neither. -/
inductive PreconAssembly where
  | globalOnly
  | globalWithSchur
  | localOnly
deriving DecidableEq

/-- The assembly decision of `EnergyBase::update_precon`: when coupled to
the subsurface (via temperature or via flux) it assembles the global
matrices only; otherwise, when the assemble flag is set, it assembles and
forms the Schur complement; otherwise nothing beyond the local matrices. -/
def preconAssembly (inp : EnergyPreconInput) : PreconAssembly :=
  if inp.coupledToSubsurfaceViaTemp ∨ inp.coupledToSubsurfaceViaFlux then
    PreconAssembly.globalOnly
  else if inp.assemblePreconditioner then
    PreconAssembly.globalWithSchur
  else
    PreconAssembly.localOnly

/-- Inputs to `EnergyBase::enorm`: the timestep, the two tolerances, and the
per-cell residual, energy and cell volume plus the per-face residual. -/
structure EnormInput where
  h : ℚ
  atol : ℚ
  rtol : ℚ
  res_c : List ℚ
  energy : List ℚ
  cv : List ℚ
  res_f : List ℚ

/-- Ternary zip used to pair each cell residual with its volume and energy. -/
def zipWith3 (f : α → β → γ → δ) : List α → List β → List γ → List δ
  | a :: as, b :: bs, c :: cs => f a b c :: zipWith3 f as bs cs
  | _, _, _ => []

/-- The cell-wise error ratio of `EnergyBase::enorm`:
`|h * res| / (atol * cv * 2e6 + rtol * |energy|)`. -/
def cellRatios (inp : EnormInput) : List ℚ :=
  zipWith3 (fun r v e => |inp.h * r| / (inp.atol * v * 2000000 + inp.rtol * |e|))
    inp.res_c inp.cv inp.energy

/-- The face-wise error ratio of `EnergyBase::enorm`:
`1e-4 * |res| / (atol + rtol * 273.15)`. -/
def faceRatios (inp : EnormInput) : List ℚ :=
  inp.res_f.map (fun r => (1 / 10000) * |r| / (inp.atol + inp.rtol * (27315 / 100)))

/-- `EnergyBase::enorm`: the maximum of the face-ratio maximum and the
cell-ratio maximum, both accumulated from zero. -/
def enorm (inp : EnormInput) : ℚ :=
  max ((faceRatios inp).foldl max 0) ((cellRatios inp).foldl max 0)

/-- Inputs to one residual evaluation in `EnergyBase::fun`: the timestep,
the old- and new-time energy snapshots, the advected enthalpy, the external
advection and diffusion operators (out-of-scope collaborators, functions of
the snapshots only), and the source data. -/
structure EnergyResidualInput where
  ncells : Nat
  dt : ℚ
  energyNew : Nat → ℚ
  energyOld : Nat → ℚ
  enthalpy : Nat → ℚ
  advectApply : (Nat → ℚ) → Nat → ℚ
  diffusionResidual : Nat → ℚ
  isSourceTerm : Bool
  source : Nat → ℚ

/-- The residual assembled by `EnergyBase::fun` at cell `c`: the (negative)
diffusion residual, plus the accumulation `(e1 - e0)/dt`, minus the advected
enthalpy (the `negate = true` convention), minus the source when present. -/
def residualCell (inp : EnergyResidualInput) (c : Nat) : ℚ :=
  let rDiff := inp.diffusionResidual c
  let rAcc := rDiff + inp.energyNew c / inp.dt - inp.energyOld c / inp.dt
  let rAdv := rAcc - inp.advectApply inp.enthalpy c
  if inp.isSourceTerm then rAdv - inp.source c else rAdv

/-- The mutable iteration counter `niter_` of the process kernel. -/
structure EnergyPKState where
  niter : Nat

/-- `EnergyBase::fun`: increments the diagnostic iteration counter and
computes the residual from the snapshots. -/
def funStep (st : EnergyPKState) (inp : EnergyResidualInput) :
    EnergyPKState × (Nat → ℚ) :=
  (⟨st.niter + 1⟩, residualCell inp)

/-! Concrete inputs used to evaluate the theorems below on closed terms. -/

/-- Composer input with two seepage faces at threshold 0: face 0 has
boundary pressure 5, face 1 has boundary pressure -5 (the scenario of the
specification), and no other boundary data. -/
def wSeep : RichardsBCInput :=
  { nfaces := 2
    ncellsOfFace := fun _ => 1
    faceArea := fun _ => 1
    relPerm := fun _ => 1
    temp := fun _ => 300
    boundaryPressure := fun f => if f = 0 then 5 else -5
    bcPressure := []
    bcFlux := []
    bcSeepage := [(0, 0), (1, 0)]
    infiltrateOnlyIfUnfrozen := false
    coupledToSurfaceViaHead := false
    coupledToSurfaceViaFlux := false
    ncellsSurface := 0
    surfaceParentFace := fun c => c
    surfaceHead := fun _ => 0
    surfaceFlux := fun _ => 0 }

/-- Composer input where face 1 is eligible for a Dirichlet pressure, a
prescribed flux and a seepage condition at once, face 0 has only a
Dirichlet pressure, face 2 has no explicit condition and one adjacent
cell, and face 3 has no explicit condition and two adjacent cells. -/
def wBC : RichardsBCInput :=
  { nfaces := 4
    ncellsOfFace := fun f => if f = 3 then 2 else 1
    faceArea := fun _ => 1
    relPerm := fun _ => 2
    temp := fun _ => 300
    boundaryPressure := fun _ => 5
    bcPressure := [(0, 100), (1, 50)]
    bcFlux := [(1, 8)]
    bcSeepage := [(1, 0)]
    infiltrateOnlyIfUnfrozen := false
    coupledToSurfaceViaHead := false
    coupledToSurfaceViaFlux := false
    ncellsSurface := 0
    surfaceParentFace := fun c => c
    surfaceHead := fun _ => 0
    surfaceFlux := fun _ => 0 }

/-- Composer input with the freezing gate on: prescribed flux 6 at faces 0
and 1, face temperature 280 K at face 0 (unfrozen) and 260 K at face 1
(frozen), upwinded coefficient 2 everywhere. -/
def wFrozen : RichardsBCInput :=
  { nfaces := 2
    ncellsOfFace := fun _ => 1
    faceArea := fun _ => 1
    relPerm := fun _ => 2
    temp := fun f => if f = 0 then 280 else 260
    boundaryPressure := fun _ => 0
    bcPressure := []
    bcFlux := [(0, 6), (1, 6)]
    bcSeepage := []
    infiltrateOnlyIfUnfrozen := true
    coupledToSurfaceViaHead := false
    coupledToSurfaceViaFlux := false
    ncellsSurface := 0
    surfaceParentFace := fun c => c
    surfaceHead := fun _ => 0
    surfaceFlux := fun _ => 0 }

/-- Preconditioner input with subsurface coupling active: cell 0 has
surface pressure below atmospheric, cell 1 at or above. -/
def wPreconCoupled : EnergyPreconInput :=
  { ncells := 2
    h := 2
    de_dT := fun _ => 10
    surfacePressure := fun c => if c = 0 then 50 else 150
    patm := 100
    accInit := fun _ => 1
    coupledToSubsurfaceViaTemp := true
    coupledToSubsurfaceViaFlux := false
    assemblePreconditioner := true }

/-- Preconditioner input with no subsurface coupling and the assemble flag
set. -/
def wPreconFree : EnergyPreconInput :=
  { ncells := 2
    h := 2
    de_dT := fun _ => 10
    surfacePressure := fun _ => 50
    patm := 100
    accInit := fun _ => 1
    coupledToSubsurfaceViaTemp := false
    coupledToSubsurfaceViaFlux := false
    assemblePreconditioner := true }

/-- Error-norm input with a single cell whose ratio is 1 and no faces. -/
def wEnorm : EnormInput :=
  { h := 1
    atol := 1
    rtol := 0
    res_c := [2000000]
    energy := [0]
    cv := [1]
    res_f := [] }

/-- Admissibility input with one cell far below the lower pressure bound. -/
def wAdm : AdmissibleInput :=
  { cells := [5, -(2 * 10 ^ 9)]
    faces := some [7] }

/-- Admissibility input with all entries within bounds. -/
def wAdmOk : AdmissibleInput :=
  { cells := [5, -3]
    faces := Option.none }

/-- Setup outcome for flux coupling only. -/
def wSetup : RichardsCouplingSetup :=
  { coupledToSurfaceViaFlux := true
    coupledToSurfaceViaHead := false
    updateFlux := UpdateFluxMode.timestep }

/-- Marker array used to evaluate the frame property: face 0 Dirichlet,
all other faces Neumann. -/
def wMarkers : Nat → BCKind := fun f => if f = 0 then BCKind.dirichlet else BCKind.neumann

/-- Value array used to evaluate the frame property. -/
def wValues : Nat → ℚ := fun _ => 42

/-- Solution vector used to evaluate the frame property. -/
def wPres : PressureVec :=
  { cell := fun _ => 1
    face := fun _ => 2 }

/-- Residual input used to evaluate the determinism law. -/
def wResidual : EnergyResidualInput :=
  { ncells := 1
    dt := 1
    energyNew := fun _ => 3
    energyOld := fun _ => 1
    enthalpy := fun _ => 2
    advectApply := fun g c => g c
    diffusionResidual := fun _ => 5
    isSourceTerm := true
    source := fun _ => 1 }

/-! Helper lemmas about the composer passes. -/

lemma setBC_markers_self (s : BCState) (f : Nat) (k : BCKind) (v : ℚ) :
    (setBC s f k v).markers f = k := by
  simp [setBC]

lemma setBC_values_self (s : BCState) (f : Nat) (k : BCKind) (v : ℚ) :
    (setBC s f k v).values f = v := by
  simp [setBC]

lemma setBC_markers_other (s : BCState) (f g : Nat) (k : BCKind) (v : ℚ)
    (h : g ≠ f) : (setBC s f k v).markers g = s.markers g := by
  simp [setBC, h]

lemma setBC_values_other (s : BCState) (f g : Nat) (k : BCKind) (v : ℚ)
    (h : g ≠ f) : (setBC s f k v).values g = s.values g := by
  simp [setBC, h]

lemma applyWrites_not_mem (key : α → Nat) (kind : α → BCKind) (val : α → ℚ)
    (l : List α) (s : BCState) (f : Nat) (h : f ∉ l.map key) :
    (applyWrites key kind val s l).markers f = s.markers f ∧
      (applyWrites key kind val s l).values f = s.values f := by
  induction l generalizing s with
  | nil => exact ⟨rfl, rfl⟩
  | cons e t ih =>
      simp only [List.map_cons, List.mem_cons, not_or] at h
      have hne : f ≠ key e := h.1
      have ht := ih (setBC s (key e) (kind e) (val e)) h.2
      simp only [applyWrites]
      exact ⟨ht.1.trans (setBC_markers_other _ _ _ _ _ hne),
             ht.2.trans (setBC_values_other _ _ _ _ _ hne)⟩

lemma applyWrites_mem (key : α → Nat) (kind : α → BCKind) (val : α → ℚ)
    (l : List α) (hnd : (l.map key).Nodup) (e : α) (he : e ∈ l) (s : BCState) :
    (applyWrites key kind val s l).markers (key e) = kind e ∧
      (applyWrites key kind val s l).values (key e) = val e := by
  induction l generalizing s with
  | nil => cases he
  | cons a t ih =>
      simp only [List.map_cons, List.nodup_cons] at hnd
      rcases List.mem_cons.mp he with rfl | hmem
      · have hnot : key e ∉ t.map key := hnd.1
        have ht := applyWrites_not_mem key kind val t
          (setBC s (key e) (kind e) (val e)) (key e) hnot
        simp only [applyWrites]
        exact ⟨ht.1.trans (setBC_markers_self _ _ _ _),
               ht.2.trans (setBC_values_self _ _ _ _)⟩
      · simp only [applyWrites]
        exact ih hnd.2 hmem _

lemma defaultFold_at (inp : RichardsBCInput) (l : List Nat) (s : BCState) (f : Nat) :
    ((defaultFold inp s l).markers f =
       (if s.markers f = BCKind.none ∧ inp.ncellsOfFace f = 1 ∧ f ∈ l
        then BCKind.neumann else s.markers f)) ∧
    ((defaultFold inp s l).values f =
       (if s.markers f = BCKind.none ∧ inp.ncellsOfFace f = 1 ∧ f ∈ l
        then 0 else s.values f)) := by
  induction l generalizing s with
  | nil => simp [defaultFold]
  | cons g t ih =>
      simp only [defaultFold]
      by_cases hfg : f = g
      · subst hfg
        by_cases hc : s.markers f = BCKind.none ∧ inp.ncellsOfFace f = 1
        · rw [if_pos hc]
          obtain ⟨hm, hv⟩ := ih (setBC s f BCKind.neumann 0)
          rw [setBC_markers_self] at hm hv
          rw [setBC_values_self] at hv
          simp only [reduceCtorEq, false_and, if_neg, not_false_iff] at hm hv
          have hcons : s.markers f = BCKind.none ∧ inp.ncellsOfFace f = 1 ∧
              f ∈ f :: t := ⟨hc.1, hc.2, List.mem_cons_self f t⟩
          rw [if_pos hcons, if_pos hcons]
          exact ⟨hm, hv⟩
        · rw [if_neg hc]
          obtain ⟨hm, hv⟩ := ih s
          have h1 : ¬(s.markers f = BCKind.none ∧ inp.ncellsOfFace f = 1 ∧ f ∈ t) :=
            fun h => hc ⟨h.1, h.2.1⟩
          have h2 : ¬(s.markers f = BCKind.none ∧ inp.ncellsOfFace f = 1 ∧
              f ∈ f :: t) := fun h => hc ⟨h.1, h.2.1⟩
          rw [if_neg h1] at hm hv
          rw [if_neg h2, if_neg h2]
          exact ⟨hm, hv⟩
      · by_cases hc : s.markers g = BCKind.none ∧ inp.ncellsOfFace g = 1
        · rw [if_pos hc]
          obtain ⟨hm, hv⟩ := ih (setBC s g BCKind.neumann 0)
          rw [setBC_markers_other _ _ _ _ _ hfg] at hm hv
          rw [setBC_values_other _ _ _ _ _ hfg] at hv
          simp only [List.mem_cons, hfg, false_or]
          exact ⟨hm, hv⟩
        · rw [if_neg hc]
          obtain ⟨hm, hv⟩ := ih s
          simp only [List.mem_cons, hfg, false_or]
          exact ⟨hm, hv⟩

lemma coupledHeadPhase_not_target (inp : RichardsBCInput) (s : BCState) (f : Nat)
    (h : f ∉ headTargets inp) :
    (coupledHeadPhase inp s).markers f = s.markers f ∧
      (coupledHeadPhase inp s).values f = s.values f := by
  unfold coupledHeadPhase
  unfold headTargets at h
  by_cases hc : inp.coupledToSurfaceViaHead
  · rw [if_pos hc] at h ⊢
    exact applyWrites_not_mem _ _ _ _ _ _ h
  · rw [if_neg hc]
    exact ⟨rfl, rfl⟩

lemma coupledFluxPhase_not_target (inp : RichardsBCInput) (kr : Bool) (s : BCState)
    (f : Nat) (h : f ∉ fluxTargets inp) :
    (coupledFluxPhase inp kr s).markers f = s.markers f ∧
      (coupledFluxPhase inp kr s).values f = s.values f := by
  unfold coupledFluxPhase
  unfold fluxTargets at h
  by_cases hc : inp.coupledToSurfaceViaFlux
  · rw [if_pos hc] at h ⊢
    exact applyWrites_not_mem _ _ _ _ _ _ h
  · rw [if_neg hc]
    exact ⟨rfl, rfl⟩

lemma defaultPhase_preserve (inp : RichardsBCInput) (s : BCState) (f : Nat)
    (h : s.markers f ≠ BCKind.none) :
    (defaultPhase inp s).markers f = s.markers f ∧
      (defaultPhase inp s).values f = s.values f := by
  obtain ⟨hm, hv⟩ := defaultFold_at inp (List.range inp.nfaces) s f
  have hcond : ¬(s.markers f = BCKind.none ∧ inp.ncellsOfFace f = 1 ∧
      f ∈ List.range inp.nfaces) := fun hx => h hx.1
  rw [if_neg hcond] at hm hv
  exact ⟨hm, hv⟩

lemma defaultPhase_fallback (inp : RichardsBCInput) (s : BCState) (f : Nat)
    (hnone : s.markers f = BCKind.none) (hnc : inp.ncellsOfFace f = 1)
    (hlt : f < inp.nfaces) :
    (defaultPhase inp s).markers f = BCKind.neumann ∧
      (defaultPhase inp s).values f = 0 := by
  obtain ⟨hm, hv⟩ := defaultFold_at inp (List.range inp.nfaces) s f
  have hcond : s.markers f = BCKind.none ∧ inp.ncellsOfFace f = 1 ∧
      f ∈ List.range inp.nfaces := ⟨hnone, hnc, List.mem_range.mpr hlt⟩
  rw [if_pos hcond] at hm hv
  exact ⟨hm, hv⟩

lemma defaultPhase_internal (inp : RichardsBCInput) (s : BCState) (f : Nat)
    (hnc : inp.ncellsOfFace f ≠ 1) :
    (defaultPhase inp s).markers f = s.markers f ∧
      (defaultPhase inp s).values f = s.values f := by
  obtain ⟨hm, hv⟩ := defaultFold_at inp (List.range inp.nfaces) s f
  have hcond : ¬(s.markers f = BCKind.none ∧ inp.ncellsOfFace f = 1 ∧
      f ∈ List.range inp.nfaces) := fun hx => hnc hx.2.1
  rw [if_neg hcond] at hm hv
  exact ⟨hm, hv⟩

lemma seepageKind_ne_none (inp : RichardsBCInput) (bc : Nat × ℚ) :
    seepageKind inp bc ≠ BCKind.none := by
  unfold seepageKind
  by_cases h : inp.boundaryPressure bc.1 < bc.2 <;> simp [h]

/-- State after the seepage pass at a face whose seepage entry is unique:
the seepage rule determines the pair, then the coupled passes (which do not
target the face) and the default pass leave it alone. -/
lemma updateBC_seepage_face (inp : RichardsBCInput) (kr : Bool) (f : Nat) (p : ℚ)
    (hnd : (inp.bcSeepage.map Prod.fst).Nodup)
    (hmem : (f, p) ∈ inp.bcSeepage)
    (hh : f ∉ headTargets inp) (hf : f ∉ fluxTargets inp) :
    (updateBoundaryConditions inp kr).markers f = seepageKind inp (f, p) ∧
      (updateBoundaryConditions inp kr).values f = seepageValue inp (f, p) := by
  unfold updateBoundaryConditions
  set s2 := fluxPhase inp kr (pressurePhase inp initBC) with hs2
  have hseep := applyWrites_mem Prod.fst (seepageKind inp) (seepageValue inp)
    inp.bcSeepage hnd (f, p) hmem s2
  set s3 := seepagePhase inp s2 with hs3
  have hseep2 : s3.markers f = seepageKind inp (f, p) ∧
      s3.values f = seepageValue inp (f, p) := hseep
  obtain ⟨hm3, hv3⟩ := hseep2
  obtain ⟨hm4, hv4⟩ := coupledHeadPhase_not_target inp s3 f hh
  set s4 := coupledHeadPhase inp s3 with hs4
  obtain ⟨hm5, hv5⟩ := coupledFluxPhase_not_target inp kr s4 f hf
  set s5 := coupledFluxPhase inp kr s4 with hs5
  have hne : s5.markers f ≠ BCKind.none := by
    rw [hm5, hm4, hm3]
    exact seepageKind_ne_none inp (f, p)
  obtain ⟨hm6, hv6⟩ := defaultPhase_preserve inp s5 f hne
  refine ⟨?_, ?_⟩
  · rw [hm6, hm5, hm4, hm3]
  · rw [hv6, hv5, hv4, hv3]

/-- State after the whole composition at a face whose prescribed-flux entry
is unique and which no later pass (seepage, coupling) targets. -/
lemma updateBC_flux_face (inp : RichardsBCInput) (kr : Bool) (f : Nat) (v : ℚ)
    (hnd : (inp.bcFlux.map Prod.fst).Nodup)
    (hmem : (f, v) ∈ inp.bcFlux)
    (hseep : f ∉ inp.bcSeepage.map Prod.fst)
    (hh : f ∉ headTargets inp) (hf : f ∉ fluxTargets inp) :
    (updateBoundaryConditions inp kr).markers f = BCKind.neumann ∧
      (updateBoundaryConditions inp kr).values f = fluxBCValue inp kr (f, v) := by
  unfold updateBoundaryConditions
  set s1 := pressurePhase inp initBC with hs1
  obtain ⟨hm2, hv2⟩ := applyWrites_mem Prod.fst (fun _ => BCKind.neumann)
    (fluxBCValue inp kr) inp.bcFlux hnd (f, v) hmem s1
  set s2 := fluxPhase inp kr s1 with hs2
  have hm2x : s2.markers f = BCKind.neumann := hm2
  have hv2x : s2.values f = fluxBCValue inp kr (f, v) := hv2
  obtain ⟨hm3, hv3⟩ := applyWrites_not_mem Prod.fst (seepageKind inp)
    (seepageValue inp) inp.bcSeepage s2 f hseep
  set s3 := seepagePhase inp s2 with hs3
  have hm3x : s3.markers f = s2.markers f := hm3
  have hv3x : s3.values f = s2.values f := hv3
  obtain ⟨hm4, hv4⟩ := coupledHeadPhase_not_target inp s3 f hh
  set s4 := coupledHeadPhase inp s3 with hs4
  obtain ⟨hm5, hv5⟩ := coupledFluxPhase_not_target inp kr s4 f hf
  set s5 := coupledFluxPhase inp kr s4 with hs5
  have hne : s5.markers f ≠ BCKind.none := by
    rw [hm5, hm4, hm3x, hm2x]
    exact fun h => BCKind.noConfusion h
  obtain ⟨hm6, hv6⟩ := defaultPhase_preserve inp s5 f hne
  refine ⟨?_, ?_⟩
  · rw [hm6, hm5, hm4, hm3x, hm2x]
  · rw [hv6, hv5, hv4, hv3x, hv2x]

/-- State after the whole composition at a face whose prescribed-pressure
entry is unique and which no later pass targets. -/
lemma updateBC_pressure_face (inp : RichardsBCInput) (kr : Bool) (f : Nat) (v : ℚ)
    (hnd : (inp.bcPressure.map Prod.fst).Nodup)
    (hmem : (f, v) ∈ inp.bcPressure)
    (hflux : f ∉ inp.bcFlux.map Prod.fst)
    (hseep : f ∉ inp.bcSeepage.map Prod.fst)
    (hh : f ∉ headTargets inp) (hf : f ∉ fluxTargets inp) :
    (updateBoundaryConditions inp kr).markers f = BCKind.dirichlet ∧
      (updateBoundaryConditions inp kr).values f = v := by
  unfold updateBoundaryConditions
  obtain ⟨hm1, hv1⟩ := applyWrites_mem Prod.fst (fun _ => BCKind.dirichlet)
    Prod.snd inp.bcPressure hnd (f, v) hmem initBC
  set s1 := pressurePhase inp initBC with hs1
  have hm1x : s1.markers f = BCKind.dirichlet := hm1
  have hv1x : s1.values f = v := hv1
  obtain ⟨hm2, hv2⟩ := applyWrites_not_mem Prod.fst (fun _ => BCKind.neumann)
    (fluxBCValue inp kr) inp.bcFlux s1 f hflux
  set s2 := fluxPhase inp kr s1 with hs2
  have hm2x : s2.markers f = s1.markers f := hm2
  have hv2x : s2.values f = s1.values f := hv2
  obtain ⟨hm3, hv3⟩ := applyWrites_not_mem Prod.fst (seepageKind inp)
    (seepageValue inp) inp.bcSeepage s2 f hseep
  set s3 := seepagePhase inp s2 with hs3
  have hm3x : s3.markers f = s2.markers f := hm3
  have hv3x : s3.values f = s2.values f := hv3
  obtain ⟨hm4, hv4⟩ := coupledHeadPhase_not_target inp s3 f hh
  set s4 := coupledHeadPhase inp s3 with hs4
  obtain ⟨hm5, hv5⟩ := coupledFluxPhase_not_target inp kr s4 f hf
  set s5 := coupledFluxPhase inp kr s4 with hs5
  have hne : s5.markers f ≠ BCKind.none := by
    rw [hm5, hm4, hm3x, hm2x, hm1x]
    exact fun h => BCKind.noConfusion h
  obtain ⟨hm6, hv6⟩ := defaultPhase_preserve inp s5 f hne
  refine ⟨?_, ?_⟩
  · rw [hm6, hm5, hm4, hm3x, hm2x, hm1x]
  · rw [hv6, hv5, hv4, hv3x, hv2x, hv1x]

/-- State after the whole composition at the parent face of surface cell
`c` when coupling via head is active (and via flux is not). -/
lemma updateBC_head_face (inp : RichardsBCInput) (kr : Bool) (c : Nat)
    (hhead : inp.coupledToSurfaceViaHead = true)
    (hflux : inp.coupledToSurfaceViaFlux = false)
    (hnd : ((List.range inp.ncellsSurface).map inp.surfaceParentFace).Nodup)
    (hc : c < inp.ncellsSurface) :
    (updateBoundaryConditions inp kr).markers (inp.surfaceParentFace c) =
        BCKind.dirichlet ∧
      (updateBoundaryConditions inp kr).values (inp.surfaceParentFace c) =
        inp.surfaceHead c := by
  unfold updateBoundaryConditions
  set s3 := seepagePhase inp (fluxPhase inp kr (pressurePhase inp initBC)) with hs3
  have hmemc : c ∈ List.range inp.ncellsSurface := List.mem_range.mpr hc
  have hstep := applyWrites_mem inp.surfaceParentFace (fun _ => BCKind.dirichlet)
    inp.surfaceHead (List.range inp.ncellsSurface) hnd c hmemc s3
  have hphase : coupledHeadPhase inp s3 =
      applyWrites inp.surfaceParentFace (fun _ => BCKind.dirichlet)
        inp.surfaceHead s3 (List.range inp.ncellsSurface) := by
    unfold coupledHeadPhase
    rw [hhead]
    simp
  have hm4 : (coupledHeadPhase inp s3).markers (inp.surfaceParentFace c) =
      BCKind.dirichlet := by
    rw [hphase]; exact hstep.1
  have hv4 : (coupledHeadPhase inp s3).values (inp.surfaceParentFace c) =
      inp.surfaceHead c := by
    rw [hphase]; exact hstep.2
  have hphase5 : coupledFluxPhase inp kr (coupledHeadPhase inp s3) =
      coupledHeadPhase inp s3 := by
    unfold coupledFluxPhase
    rw [hflux]
    simp
  rw [hphase5]
  have hne : (coupledHeadPhase inp s3).markers (inp.surfaceParentFace c) ≠
      BCKind.none := by
    rw [hm4]; exact fun h => BCKind.noConfusion h
  obtain ⟨hm6, hv6⟩ := defaultPhase_preserve inp (coupledHeadPhase inp s3)
    (inp.surfaceParentFace c) hne
  exact ⟨hm6.trans hm4, hv6.trans hv4⟩

/-- State after the whole composition at the parent face of surface cell
`c` when coupling via flux is active (the via-flux pass runs last among the
explicit passes, so no assumption on the via-head flag is needed). -/
lemma updateBC_coupledflux_face (inp : RichardsBCInput) (kr : Bool) (c : Nat)
    (hflux : inp.coupledToSurfaceViaFlux = true)
    (hnd : ((List.range inp.ncellsSurface).map inp.surfaceParentFace).Nodup)
    (hc : c < inp.ncellsSurface) :
    (updateBoundaryConditions inp kr).markers (inp.surfaceParentFace c) =
        BCKind.neumann ∧
      (updateBoundaryConditions inp kr).values (inp.surfaceParentFace c) =
        coupledFluxValue inp kr c := by
  unfold updateBoundaryConditions
  set s4 := coupledHeadPhase inp
    (seepagePhase inp (fluxPhase inp kr (pressurePhase inp initBC))) with hs4
  have hmemc : c ∈ List.range inp.ncellsSurface := List.mem_range.mpr hc
  have hstep := applyWrites_mem inp.surfaceParentFace (fun _ => BCKind.neumann)
    (coupledFluxValue inp kr) (List.range inp.ncellsSurface) hnd c hmemc s4
  have hphase : coupledFluxPhase inp kr s4 =
      applyWrites inp.surfaceParentFace (fun _ => BCKind.neumann)
        (coupledFluxValue inp kr) s4 (List.range inp.ncellsSurface) := by
    unfold coupledFluxPhase
    rw [hflux]
    simp
  have hm5 : (coupledFluxPhase inp kr s4).markers (inp.surfaceParentFace c) =
      BCKind.neumann := by
    rw [hphase]; exact hstep.1
  have hv5 : (coupledFluxPhase inp kr s4).values (inp.surfaceParentFace c) =
      coupledFluxValue inp kr c := by
    rw [hphase]; exact hstep.2
  have hne : (coupledFluxPhase inp kr s4).markers (inp.surfaceParentFace c) ≠
      BCKind.none := by
    rw [hm5]; exact fun h => BCKind.noConfusion h
  obtain ⟨hm6, hv6⟩ := defaultPhase_preserve inp (coupledFluxPhase inp kr s4)
    (inp.surfaceParentFace c) hne
  exact ⟨hm6.trans hm5, hv6.trans hv5⟩

/-- State before the default pass at a face no explicit source writes:
still unmarked with value zero. -/
lemma updateBC_untouched (inp : RichardsBCInput) (kr : Bool) (f : Nat)
    (hpres : f ∉ inp.bcPressure.map Prod.fst)
    (hflux : f ∉ inp.bcFlux.map Prod.fst)
    (hseep : f ∉ inp.bcSeepage.map Prod.fst)
    (hh : f ∉ headTargets inp) (hf : f ∉ fluxTargets inp) :
    (coupledFluxPhase inp kr
        (coupledHeadPhase inp
          (seepagePhase inp
            (fluxPhase inp kr
              (pressurePhase inp initBC))))).markers f = BCKind.none ∧
      (coupledFluxPhase inp kr
        (coupledHeadPhase inp
          (seepagePhase inp
            (fluxPhase inp kr
              (pressurePhase inp initBC))))).values f = 0 := by
  obtain ⟨hm1, hv1⟩ := applyWrites_not_mem Prod.fst (fun _ => BCKind.dirichlet)
    Prod.snd inp.bcPressure initBC f hpres
  set s1 := pressurePhase inp initBC with hs1
  have hm1x : s1.markers f = initBC.markers f := hm1
  have hv1x : s1.values f = initBC.values f := hv1
  obtain ⟨hm2, hv2⟩ := applyWrites_not_mem Prod.fst (fun _ => BCKind.neumann)
    (fluxBCValue inp kr) inp.bcFlux s1 f hflux
  set s2 := fluxPhase inp kr s1 with hs2
  have hm2x : s2.markers f = s1.markers f := hm2
  have hv2x : s2.values f = s1.values f := hv2
  obtain ⟨hm3, hv3⟩ := applyWrites_not_mem Prod.fst (seepageKind inp)
    (seepageValue inp) inp.bcSeepage s2 f hseep
  set s3 := seepagePhase inp s2 with hs3
  have hm3x : s3.markers f = s2.markers f := hm3
  have hv3x : s3.values f = s2.values f := hv3
  obtain ⟨hm4, hv4⟩ := coupledHeadPhase_not_target inp s3 f hh
  set s4 := coupledHeadPhase inp s3 with hs4
  obtain ⟨hm5, hv5⟩ := coupledFluxPhase_not_target inp kr s4 f hf
  refine ⟨?_, ?_⟩
  · rw [hm5, hm4, hm3x, hm2x, hm1x]; rfl
  · rw [hv5, hv4, hv3x, hv2x, hv1x]; rfl

/-! Helper lemmas about the running minimum / maximum folds. -/

lemma minScan_fst (l : List ℚ) : ∀ (i : Nat) (m : ℚ) (idx : Int),
    (minScan l i (m, idx)).1 = l.foldl min m := by
  induction l with
  | nil => intro i m idx; rfl
  | cons x t ih =>
      intro i m idx
      simp only [minScan, List.foldl_cons]
      by_cases h : x < m
      · rw [if_pos h, ih]
        congr 1
        exact (min_eq_right (le_of_lt h)).symm
      · rw [if_neg h, ih]
        congr 1
        exact (min_eq_left (le_of_not_lt h)).symm

lemma maxScan_fst (l : List ℚ) : ∀ (i : Nat) (m : ℚ) (idx : Int),
    (maxScan l i (m, idx)).1 = l.foldl max m := by
  induction l with
  | nil => intro i m idx; rfl
  | cons x t ih =>
      intro i m idx
      simp only [maxScan, List.foldl_cons]
      by_cases h : x > m
      · rw [if_pos h, ih]
        congr 1
        exact (max_eq_right (le_of_lt h)).symm
      · rw [if_neg h, ih]
        congr 1
        exact (max_eq_left (le_of_not_lt h)).symm

lemma foldl_min_lt_iff (l : List ℚ) : ∀ (m c : ℚ),
    l.foldl min m < c ↔ m < c ∨ ∃ x ∈ l, x < c := by
  induction l with
  | nil => intro m c; simp
  | cons y t ih =>
      intro m c
      rw [List.foldl_cons, ih, min_lt_iff]
      constructor
      · rintro ((h | h) | ⟨x, hx, hxc⟩)
        · exact Or.inl h
        · exact Or.inr ⟨y, List.mem_cons_self y t, h⟩
        · exact Or.inr ⟨x, List.mem_cons_of_mem y hx, hxc⟩
      · rintro (h | ⟨x, hx, hxc⟩)
        · exact Or.inl (Or.inl h)
        · rcases List.mem_cons.mp hx with rfl | hxt
          · exact Or.inl (Or.inr hxc)
          · exact Or.inr ⟨x, hxt, hxc⟩

lemma lt_foldl_max_iff (l : List ℚ) : ∀ (m c : ℚ),
    c < l.foldl max m ↔ c < m ∨ ∃ x ∈ l, c < x := by
  induction l with
  | nil => intro m c; simp
  | cons y t ih =>
      intro m c
      rw [List.foldl_cons, ih, lt_max_iff]
      constructor
      · rintro ((h | h) | ⟨x, hx, hxc⟩)
        · exact Or.inl h
        · exact Or.inr ⟨y, List.mem_cons_self y t, h⟩
        · exact Or.inr ⟨x, List.mem_cons_of_mem y hx, hxc⟩
      · rintro (h | ⟨x, hx, hxc⟩)
        · exact Or.inl (Or.inl h)
        · rcases List.mem_cons.mp hx with rfl | hxt
          · exact Or.inl (Or.inr hxc)
          · exact Or.inr ⟨x, hxt, hxc⟩

lemma foldl_min_le_init (l : List ℚ) : ∀ (a : ℚ), l.foldl min a ≤ a := by
  induction l with
  | nil => intro a; exact le_refl a
  | cons y t ih =>
      intro a
      rw [List.foldl_cons]
      exact le_trans (ih (min a y)) (min_le_left a y)

lemma le_foldl_max_init (l : List ℚ) : ∀ (a : ℚ), a ≤ l.foldl max a := by
  induction l with
  | nil => intro a; exact le_refl a
  | cons y t ih =>
      intro a
      rw [List.foldl_cons]
      exact le_trans (le_max_left a y) (ih (max a y))

lemma foldl_min_le_mem (l : List ℚ) : ∀ (a x : ℚ), x ∈ l → l.foldl min a ≤ x := by
  induction l with
  | nil => intro a x h; cases h
  | cons y t ih =>
      intro a x h
      rw [List.foldl_cons]
      rcases List.mem_cons.mp h with rfl | ht
      · exact le_trans (foldl_min_le_init t (min a x)) (min_le_right a x)
      · exact ih (min a y) x ht

lemma mem_le_foldl_max (l : List ℚ) : ∀ (a x : ℚ), x ∈ l → x ≤ l.foldl max a := by
  induction l with
  | nil => intro a x h; cases h
  | cons y t ih =>
      intro a x h
      rw [List.foldl_cons]
      rcases List.mem_cons.mp h with rfl | ht
      · exact le_trans (le_max_right a x) (le_foldl_max_init t (max a x))
      · exact ih (max a y) x ht

lemma foldl_max_eq_or_mem (l : List ℚ) : ∀ (a : ℚ),
    l.foldl max a = a ∨ l.foldl max a ∈ l := by
  induction l with
  | nil => intro a; exact Or.inl rfl
  | cons y t ih =>
      intro a
      rw [List.foldl_cons]
      rcases ih (max a y) with h | h
      · rcases max_choice a y with hm | hm
        · exact Or.inl (h.trans hm)
        · refine Or.inr ?_
          rw [h.trans hm]
          exact List.mem_cons_self y t
      · exact Or.inr (List.mem_cons_of_mem y h)

lemma admMin_lt_iff (inp : AdmissibleInput) :
    admMin inp < -(10 ^ 9) ↔ ∃ x ∈ allUnknowns inp, x < -(10 ^ 9) := by
  have hsent : ¬((10 ^ 15 : ℚ) < -(10 ^ 9)) := by norm_num
  unfold admMin allUnknowns
  cases hfc : inp.faces with
  | none =>
      dsimp only
      rw [minScan_fst, foldl_min_lt_iff]
      simp only [Option.getD_none, List.append_nil]
      constructor
      · rintro (h | h)
        · exact absurd h hsent
        · exact h
      · exact Or.inr
  | some fs =>
      dsimp only
      rw [minScan_fst, minScan_fst, min_lt_iff, foldl_min_lt_iff, foldl_min_lt_iff]
      simp only [Option.getD_some]
      constructor
      · rintro ((h | ⟨x, hx, hlt⟩) | (h | ⟨x, hx, hlt⟩))
        · exact absurd h hsent
        · exact ⟨x, List.mem_append.mpr (Or.inl hx), hlt⟩
        · exact absurd h hsent
        · exact ⟨x, List.mem_append.mpr (Or.inr hx), hlt⟩
      · rintro ⟨x, hx, hlt⟩
        rcases List.mem_append.mp hx with h | h
        · exact Or.inl (Or.inr ⟨x, h, hlt⟩)
        · exact Or.inr (Or.inr ⟨x, h, hlt⟩)

lemma admMax_gt_iff (inp : AdmissibleInput) :
    10 ^ 8 < admMax inp ↔ ∃ x ∈ allUnknowns inp, 10 ^ 8 < x := by
  have hsent : ¬((10 ^ 8 : ℚ) < -(10 ^ 15)) := by norm_num
  unfold admMax allUnknowns
  cases hfc : inp.faces with
  | none =>
      dsimp only
      rw [maxScan_fst, lt_foldl_max_iff]
      simp only [Option.getD_none, List.append_nil]
      constructor
      · rintro (h | h)
        · exact absurd h hsent
        · exact h
      · exact Or.inr
  | some fs =>
      dsimp only
      rw [maxScan_fst, maxScan_fst, lt_max_iff, lt_foldl_max_iff, lt_foldl_max_iff]
      simp only [Option.getD_some]
      constructor
      · rintro ((h | ⟨x, hx, hlt⟩) | (h | ⟨x, hx, hlt⟩))
        · exact absurd h hsent
        · exact ⟨x, List.mem_append.mpr (Or.inl hx), hlt⟩
        · exact absurd h hsent
        · exact ⟨x, List.mem_append.mpr (Or.inr hx), hlt⟩
      · rintro ⟨x, hx, hlt⟩
        rcases List.mem_append.mp hx with h | h
        · exact Or.inl (Or.inr ⟨x, h, hlt⟩)
        · exact Or.inr (Or.inr ⟨x, h, hlt⟩)

lemma admBounds (inp : AdmissibleInput) :
    ∀ p ∈ allUnknowns inp, admMin inp ≤ p ∧ p ≤ admMax inp := by
  intro p hp
  unfold allUnknowns at hp
  unfold admMin admMax
  cases hfc : inp.faces with
  | none =>
      dsimp only
      rw [hfc] at hp
      simp only [Option.getD_none, List.append_nil] at hp
      rw [minScan_fst, maxScan_fst]
      exact ⟨foldl_min_le_mem _ _ p hp, mem_le_foldl_max _ _ p hp⟩
  | some fs =>
      dsimp only
      rw [hfc] at hp
      simp only [Option.getD_some] at hp
      rw [minScan_fst, minScan_fst, maxScan_fst, maxScan_fst]
      rcases List.mem_append.mp hp with h | h
      · exact ⟨le_trans (min_le_left _ _) (foldl_min_le_mem _ _ p h),
          le_trans (mem_le_foldl_max _ _ p h) (le_max_left _ _)⟩
      · exact ⟨le_trans (min_le_right _ _) (foldl_min_le_mem _ _ p h),
          le_trans (mem_le_foldl_max _ _ p h) (le_max_right _ _)⟩

/-! Claim theorems. -/

/-- C1: for every face in the seepage-face boundary function (not
overridden by a coupled-domain pass), the composer emits the
complementarity pair: boundary pressure strictly below the threshold gives
zero-flux Neumann, boundary pressure at or above the threshold gives
Dirichlet at the threshold value. -/
theorem seepage_complementarity (inp : RichardsBCInput) (kr : Bool) (f : Nat)
    (p : ℚ) (hnd : (inp.bcSeepage.map Prod.fst).Nodup)
    (hmem : (f, p) ∈ inp.bcSeepage)
    (hh : f ∉ headTargets inp) (hf : f ∉ fluxTargets inp) :
    (inp.boundaryPressure f < p →
      (updateBoundaryConditions inp kr).markers f = BCKind.neumann ∧
        (updateBoundaryConditions inp kr).values f = 0) ∧
    (p ≤ inp.boundaryPressure f →
      (updateBoundaryConditions inp kr).markers f = BCKind.dirichlet ∧
        (updateBoundaryConditions inp kr).values f = p) := by
  obtain ⟨hm, hv⟩ := updateBC_seepage_face inp kr f p hnd hmem hh hf
  constructor
  · intro hlt
    have hlt2 : inp.boundaryPressure (f, p).1 < (f, p).2 := hlt
    rw [hm, hv]
    unfold seepageKind seepageValue
    rw [if_pos hlt2, if_pos hlt2]
    exact ⟨rfl, rfl⟩
  · intro hge
    have hnlt : ¬ inp.boundaryPressure (f, p).1 < (f, p).2 := not_lt.mpr hge
    rw [hm, hv]
    unfold seepageKind seepageValue
    rw [if_neg hnlt, if_neg hnlt]
    exact ⟨rfl, rfl⟩

/-- Witness for C1 on the specification scenario: threshold 0, boundary
pressure 5 at face 0 gives Dirichlet 0, boundary pressure -5 at face 1
gives Neumann 0. -/
theorem seepage_complementarity_witness :
    ((updateBoundaryConditions wSeep true).markers 0 = BCKind.dirichlet ∧
      (updateBoundaryConditions wSeep true).values 0 = 0) ∧
    ((updateBoundaryConditions wSeep true).markers 1 = BCKind.neumann ∧
      (updateBoundaryConditions wSeep true).values 1 = 0) := by
  have h0 := seepage_complementarity wSeep true 0 0 (by decide) (by decide)
    (by decide) (by decide)
  have h1 := seepage_complementarity wSeep true 1 0 (by decide) (by decide)
    (by decide) (by decide)
  refine ⟨h0.2 (by norm_num [wSeep]), h1.1 (by norm_num [wSeep])⟩

/-- C5: with the infiltrate-only-if-unfrozen option, a prescribed-flux
face (not overridden by a later pass) is marked Neumann; its value is 0
when the companion face temperature is below 273.15, and above 273.15 it
is the prescribed flux, divided by the upwinded coefficient when the
composer runs without rel perm and that coefficient is positive. -/
theorem infiltrate_gate (inp : RichardsBCInput) (kr : Bool) (f : Nat) (v : ℚ)
    (hinf : inp.infiltrateOnlyIfUnfrozen = true)
    (hnd : (inp.bcFlux.map Prod.fst).Nodup)
    (hmem : (f, v) ∈ inp.bcFlux)
    (hseep : f ∉ inp.bcSeepage.map Prod.fst)
    (hh : f ∉ headTargets inp) (hf : f ∉ fluxTargets inp) :
    (updateBoundaryConditions inp kr).markers f = BCKind.neumann ∧
    (inp.temp f < 27315 / 100 → (updateBoundaryConditions inp kr).values f = 0) ∧
    (27315 / 100 < inp.temp f →
      (updateBoundaryConditions inp kr).values f =
        if kr = false ∧ inp.relPerm f > 0 then v / inp.relPerm f else v) := by
  obtain ⟨hm, hv⟩ := updateBC_flux_face inp kr f v hnd hmem hseep hh hf
  refine ⟨hm, ?_, ?_⟩
  · intro hcold
    rw [hv]
    unfold fluxBCValue
    rw [if_pos hinf]
    have : ¬ inp.temp (f, v).1 > 27315 / 100 := not_lt.mpr (le_of_lt hcold)
    rw [if_neg this]
  · intro hwarm
    rw [hv]
    unfold fluxBCValue
    rw [if_pos hinf]
    have hgt : inp.temp (f, v).1 > 27315 / 100 := hwarm
    rw [if_pos hgt]

/-- Witness for C5: flux 6 with coefficient 2 and kr = false gives value 3
at the unfrozen face 0 and value 0 at the frozen face 1, both Neumann. -/
theorem infiltrate_gate_witness :
    ((updateBoundaryConditions wFrozen false).markers 0 = BCKind.neumann ∧
      (updateBoundaryConditions wFrozen false).values 0 = 3) ∧
    ((updateBoundaryConditions wFrozen false).markers 1 = BCKind.neumann ∧
      (updateBoundaryConditions wFrozen false).values 1 = 0) := by
  have h0 := infiltrate_gate wFrozen false 0 6 (by decide) (by decide) (by decide)
    (by decide) (by decide) (by decide)
  have h1 := infiltrate_gate wFrozen false 1 6 (by decide) (by decide) (by decide)
    (by decide) (by decide) (by decide)
  refine ⟨⟨h0.1, ?_⟩, ⟨h1.1, h1.2.1 (by norm_num [wFrozen])⟩⟩
  have hx := h0.2.2 (by norm_num [wFrozen])
  rw [hx]
  norm_num [wFrozen]

/-- C2: after one full composition pass each face carries the pair of the
highest-precedence source that targets it — coupled-domain conditions
override seepage, which overrides prescribed flux, which overrides
prescribed Dirichlet pressure; a face with one adjacent cell and no
explicit condition gets zero-flux Neumann; a face with two adjacent cells
and no explicit condition stays unmarked.  In particular a face eligible
for both a seepage condition and the default fallback gets the seepage
pair. -/
theorem updateBoundaryConditions_precedence (inp : RichardsBCInput) (kr : Bool)
    (hndp : (inp.bcPressure.map Prod.fst).Nodup)
    (hndf : (inp.bcFlux.map Prod.fst).Nodup)
    (hnds : (inp.bcSeepage.map Prod.fst).Nodup)
    (hndc : ((List.range inp.ncellsSurface).map inp.surfaceParentFace).Nodup) :
    (inp.coupledToSurfaceViaHead = true → inp.coupledToSurfaceViaFlux = false →
      ∀ c, c < inp.ncellsSurface →
        (updateBoundaryConditions inp kr).markers (inp.surfaceParentFace c) =
            BCKind.dirichlet ∧
          (updateBoundaryConditions inp kr).values (inp.surfaceParentFace c) =
            inp.surfaceHead c) ∧
    (inp.coupledToSurfaceViaFlux = true →
      ∀ c, c < inp.ncellsSurface →
        (updateBoundaryConditions inp kr).markers (inp.surfaceParentFace c) =
            BCKind.neumann ∧
          (updateBoundaryConditions inp kr).values (inp.surfaceParentFace c) =
            coupledFluxValue inp kr c) ∧
    (∀ f p, (f, p) ∈ inp.bcSeepage → f ∉ headTargets inp → f ∉ fluxTargets inp →
      (updateBoundaryConditions inp kr).markers f = seepageKind inp (f, p) ∧
        (updateBoundaryConditions inp kr).values f = seepageValue inp (f, p)) ∧
    (∀ f v, (f, v) ∈ inp.bcFlux → f ∉ inp.bcSeepage.map Prod.fst →
      f ∉ headTargets inp → f ∉ fluxTargets inp →
      (updateBoundaryConditions inp kr).markers f = BCKind.neumann ∧
        (updateBoundaryConditions inp kr).values f = fluxBCValue inp kr (f, v)) ∧
    (∀ f v, (f, v) ∈ inp.bcPressure → f ∉ inp.bcFlux.map Prod.fst →
      f ∉ inp.bcSeepage.map Prod.fst → f ∉ headTargets inp → f ∉ fluxTargets inp →
      (updateBoundaryConditions inp kr).markers f = BCKind.dirichlet ∧
        (updateBoundaryConditions inp kr).values f = v) ∧
    (∀ f, f < inp.nfaces → f ∉ inp.bcPressure.map Prod.fst →
      f ∉ inp.bcFlux.map Prod.fst → f ∉ inp.bcSeepage.map Prod.fst →
      f ∉ headTargets inp → f ∉ fluxTargets inp → inp.ncellsOfFace f = 1 →
      (updateBoundaryConditions inp kr).markers f = BCKind.neumann ∧
        (updateBoundaryConditions inp kr).values f = 0) ∧
    (∀ f, f ∉ inp.bcPressure.map Prod.fst → f ∉ inp.bcFlux.map Prod.fst →
      f ∉ inp.bcSeepage.map Prod.fst → f ∉ headTargets inp → f ∉ fluxTargets inp →
      inp.ncellsOfFace f = 2 →
      (updateBoundaryConditions inp kr).markers f = BCKind.none) := by
  refine ⟨?_, ?_, ?_, ?_, ?_, ?_, ?_⟩
  · intro hhead hflux c hc
    exact updateBC_head_face inp kr c hhead hflux hndc hc
  · intro hflux c hc
    exact updateBC_coupledflux_face inp kr c hflux hndc hc
  · intro f p hmem hh hf
    exact updateBC_seepage_face inp kr f p hnds hmem hh hf
  · intro f v hmem hseep hh hf
    exact updateBC_flux_face inp kr f v hndf hmem hseep hh hf
  · intro f v hmem hflux hseep hh hf
    exact updateBC_pressure_face inp kr f v hndp hmem hflux hseep hh hf
  · intro f hlt hpres hflux hseep hh hf hnc
    obtain ⟨hm, hv⟩ := updateBC_untouched inp kr f hpres hflux hseep hh hf
    have hfall := defaultPhase_fallback inp
      (coupledFluxPhase inp kr
        (coupledHeadPhase inp
          (seepagePhase inp
            (fluxPhase inp kr
              (pressurePhase inp initBC))))) f hm hnc hlt
    exact hfall
  · intro f hpres hflux hseep hh hf hnc
    obtain ⟨hm, hv⟩ := updateBC_untouched inp kr f hpres hflux hseep hh hf
    have hne1 : inp.ncellsOfFace f ≠ 1 := by rw [hnc]; decide
    have hint := defaultPhase_internal inp
      (coupledFluxPhase inp kr
        (coupledHeadPhase inp
          (seepagePhase inp
            (fluxPhase inp kr
              (pressurePhase inp initBC))))) f hne1
    exact hint.1.trans hm

/-- Witness for C2: on `wBC`, face 1 (eligible for pressure, flux and
seepage) gets the seepage pair Dirichlet 0; face 0 keeps its Dirichlet
pressure 100; face 2 gets the default zero-flux Neumann; face 3 (two
adjacent cells) stays unmarked. -/
theorem updateBoundaryConditions_precedence_witness :
    ((updateBoundaryConditions wBC true).markers 1 = BCKind.dirichlet ∧
      (updateBoundaryConditions wBC true).values 1 = 0) ∧
    ((updateBoundaryConditions wBC true).markers 0 = BCKind.dirichlet ∧
      (updateBoundaryConditions wBC true).values 0 = 100) ∧
    ((updateBoundaryConditions wBC true).markers 2 = BCKind.neumann ∧
      (updateBoundaryConditions wBC true).values 2 = 0) ∧
    (updateBoundaryConditions wBC true).markers 3 = BCKind.none := by
  have h := updateBoundaryConditions_precedence wBC true (by decide) (by decide)
    (by decide) (by decide)
  have hseep := h.2.2.1 1 0 (by decide) (by decide) (by decide)
  have hpress := h.2.2.2.2.1 0 100 (by decide) (by decide) (by decide) (by decide)
    (by decide)
  have hdef := h.2.2.2.2.2.1 2 (by decide) (by decide) (by decide) (by decide)
    (by decide) (by decide) (by decide)
  have hint := h.2.2.2.2.2.2 3 (by decide) (by decide) (by decide) (by decide)
    (by decide) (by decide)
  refine ⟨⟨?_, ?_⟩, hpress, hdef, hint⟩
  · rw [hseep.1]; decide
  · rw [hseep.2]; decide

/-- C3 counterexample: with subsurface coupling active (and even with the
assemble flag set) the preconditioner update does not perform the
Schur-complement reduction, contradicting the claim that coupling implies
full assembly plus Schur reduction. -/
theorem preconAssembly_claim_counterexample :
    wPreconCoupled.coupledToSubsurfaceViaTemp = true ∧
      preconAssembly wPreconCoupled ≠ PreconAssembly.globalWithSchur := by
  decide

/-- C3 (amended): with subsurface coupling active the update performs
global assembly only (no Schur reduction); without coupling and with the
assemble flag set it performs global assembly plus the Schur-complement
reduction; otherwise only the local matrices are kept. -/
theorem preconAssembly_characterization (inp : EnergyPreconInput) :
    ((inp.coupledToSubsurfaceViaTemp = true ∨ inp.coupledToSubsurfaceViaFlux = true) →
      preconAssembly inp = PreconAssembly.globalOnly) ∧
    (inp.coupledToSubsurfaceViaTemp = false → inp.coupledToSubsurfaceViaFlux = false →
      inp.assemblePreconditioner = true →
      preconAssembly inp = PreconAssembly.globalWithSchur) ∧
    (inp.coupledToSubsurfaceViaTemp = false → inp.coupledToSubsurfaceViaFlux = false →
      inp.assemblePreconditioner = false →
      preconAssembly inp = PreconAssembly.localOnly) := by
  unfold preconAssembly
  refine ⟨?_, ?_, ?_⟩
  · intro h
    rcases h with h | h <;> simp [h]
  · intro h1 h2 h3
    simp [h1, h2, h3]
  · intro h1 h2 h3
    simp [h1, h2, h3]

/-- Witness for the amended C3. -/
theorem preconAssembly_characterization_witness :
    preconAssembly wPreconCoupled = PreconAssembly.globalOnly ∧
      preconAssembly wPreconFree = PreconAssembly.globalWithSchur := by
  exact ⟨(preconAssembly_characterization wPreconCoupled).1 (Or.inl (by decide)),
    (preconAssembly_characterization wPreconFree).2.1 (by decide) (by decide)
      (by decide)⟩

/-- C4: in the preconditioner update, a cell of a subsurface-coupled
process whose companion surface pressure is strictly below atmospheric
gets no accumulation-derivative contribution; every other cell (surface
pressure at or above atmospheric, or no coupling) gets exactly
de/dT divided by the timestep added to its diagonal. -/
theorem accCells_gating (inp : EnergyPreconInput) (c : Nat) :
    ((inp.coupledToSubsurfaceViaTemp = true ∨ inp.coupledToSubsurfaceViaFlux = true) →
      (inp.surfacePressure c < inp.patm → accCells inp c = inp.accInit c) ∧
      (inp.patm ≤ inp.surfacePressure c →
        accCells inp c = inp.accInit c + inp.de_dT c / inp.h)) ∧
    (inp.coupledToSubsurfaceViaTemp = false →
      inp.coupledToSubsurfaceViaFlux = false →
      accCells inp c = inp.accInit c + inp.de_dT c / inp.h) := by
  unfold accCells
  refine ⟨?_, ?_⟩
  · intro hcoup
    have hc : (inp.coupledToSubsurfaceViaTemp ∨ inp.coupledToSubsurfaceViaFlux : Prop) := by
      rcases hcoup with h | h <;> simp [h]
    refine ⟨?_, ?_⟩
    · intro hlow
      have hn : ¬ inp.surfacePressure c ≥ inp.patm := not_le.mpr hlow
      rw [if_pos hc, if_neg hn, add_zero]
    · intro hhigh
      have hy : inp.surfacePressure c ≥ inp.patm := hhigh
      rw [if_pos hc, if_pos hy]
  · intro h1 h2
    have hn : ¬(inp.coupledToSubsurfaceViaTemp ∨ inp.coupledToSubsurfaceViaFlux : Prop) := by
      simp [h1, h2]
    rw [if_neg hn]

/-- Witness for C4: on `wPreconCoupled`, cell 0 (surface pressure 50 below
patm 100) keeps its initial diagonal 1; cell 1 (surface pressure 150) gets
1 + 10/2 = 6; on the uncoupled `wPreconFree` every cell gets 6. -/
theorem accCells_gating_witness :
    accCells wPreconCoupled 0 = 1 ∧ accCells wPreconCoupled 1 = 6 ∧
      accCells wPreconFree 0 = 6 := by
  have h0 := (accCells_gating wPreconCoupled 0).1 (Or.inl (by decide))
  have h1 := (accCells_gating wPreconCoupled 1).1 (Or.inl (by decide))
  have h2 := (accCells_gating wPreconFree 0).2 (by decide) (by decide)
  refine ⟨?_, ?_, ?_⟩
  · rw [h0.1 (by norm_num [wPreconCoupled])]
    norm_num [wPreconCoupled]
  · rw [h1.2 (by norm_num [wPreconCoupled])]
    norm_num [wPreconCoupled]
  · rw [h2]
    norm_num [wPreconFree]

/-- C8: the residual of `EnergyBase::fun` is a pure function of the
snapshots and boundary/source data; two invocations from different counter
states agree, a repeated invocation agrees with the first, and the
incremented iteration counter never feeds back into the residual. -/
theorem funStep_deterministic (st1 st2 : EnergyPKState)
    (inp : EnergyResidualInput) (c : Nat) :
    ((funStep st1 inp).2 c = (funStep st2 inp).2 c) ∧
    ((funStep (funStep st1 inp).1 inp).2 c = (funStep st1 inp).2 c) ∧
    ((funStep st1 inp).1.niter = st1.niter + 1) ∧
    ((funStep st1 inp).2 c = residualCell inp c) := by
  exact ⟨rfl, rfl, rfl, rfl⟩

/-- C9: setup rejects configurations with both surface-coupling flags set;
any configuration that passes setup has at most one of the two
coupled-domain condition kinds active. -/
theorem setupCoupling_mutual_exclusion (viaFlux viaHead : Bool)
    (mode : UpdateFluxMode) :
    (∀ r, setupCoupling viaFlux viaHead mode = Except.ok r →
      ¬(r.coupledToSurfaceViaFlux = true ∧ r.coupledToSurfaceViaHead = true)) ∧
    (viaFlux = true → viaHead = true →
      ∃ msg, setupCoupling viaFlux viaHead mode = Except.error msg) := by
  constructor
  · intro r hr hcon
    unfold setupCoupling at hr
    by_cases hb : (viaFlux ∧ viaHead : Prop)
    · rw [if_pos hb] at hr
      exact Except.noConfusion hr
    · rw [if_neg hb] at hr
      cases Except.ok.inj hr
      exact hb ⟨hcon.1, hcon.2⟩
  · intro h1 h2
    subst h1
    subst h2
    exact ⟨_, rfl⟩

/-- Witness for C9: a flux-only configuration passes setup with at most one
coupling active, and the doubly-coupled configuration is rejected. -/
theorem setupCoupling_mutual_exclusion_witness :
    ¬(wSetup.coupledToSurfaceViaFlux = true ∧
        wSetup.coupledToSurfaceViaHead = true) ∧
      ∃ msg, setupCoupling true true UpdateFluxMode.never = Except.error msg := by
  exact ⟨(setupCoupling_mutual_exclusion true false UpdateFluxMode.timestep).1
      wSetup rfl,
    (setupCoupling_mutual_exclusion true true UpdateFluxMode.never).2 rfl rfl⟩

/-- C10: applying boundary conditions to the primary-unknown vector
overwrites exactly the owned faces marked Dirichlet with the composed
value; every other face entry and every cell entry is unchanged. -/
theorem applyBoundaryConditionsVec_frame (markers : Nat → BCKind)
    (values : Nat → ℚ) (nfaces : Nat) (p : PressureVec) :
    (∀ f, f < nfaces → markers f = BCKind.dirichlet →
      (applyBoundaryConditionsVec markers values nfaces p).face f = values f) ∧
    (∀ f, markers f ≠ BCKind.dirichlet →
      (applyBoundaryConditionsVec markers values nfaces p).face f = p.face f) ∧
    (∀ f, nfaces ≤ f →
      (applyBoundaryConditionsVec markers values nfaces p).face f = p.face f) ∧
    (∀ c, (applyBoundaryConditionsVec markers values nfaces p).cell c = p.cell c) := by
  unfold applyBoundaryConditionsVec
  refine ⟨?_, ?_, ?_, ?_⟩
  · intro f hlt hd
    simp only [hlt, hd, and_self, if_pos]
  · intro f hd
    have : ¬(f < nfaces ∧ markers f = BCKind.dirichlet) := fun h => hd h.2
    simp only [this, if_neg, not_false_iff]
  · intro f hge
    have : ¬(f < nfaces ∧ markers f = BCKind.dirichlet) :=
      fun h => absurd h.1 (not_lt.mpr hge)
    simp only [this, if_neg, not_false_iff]
  · intro c
    rfl

/-- Witness for C10: face 0 (Dirichlet) is overwritten with 42, face 1
(Neumann) and the cells keep their values. -/
theorem applyBoundaryConditionsVec_frame_witness :
    (applyBoundaryConditionsVec wMarkers wValues 2 wPres).face 0 = 42 ∧
    (applyBoundaryConditionsVec wMarkers wValues 2 wPres).face 1 = 2 ∧
    (applyBoundaryConditionsVec wMarkers wValues 2 wPres).cell 0 = 1 := by
  have h := applyBoundaryConditionsVec_frame wMarkers wValues 2 wPres
  refine ⟨?_, ?_, ?_⟩
  · rw [h.1 0 (by decide) (by decide)]; decide
  · rw [h.2.1 1 (by decide)]; decide
  · rw [h.2.2.2 0]; decide

/-- C6: the error norm is the maximum, over all cells and all faces, of
the cell-wise residual-to-energy-scale ratio and the face-wise
flux-mismatch ratio: every ratio is bounded by the returned value, and the
returned value is zero or is attained by some single cell or face. -/
theorem enorm_is_max (inp : EnormInput) :
    (∀ r ∈ cellRatios inp, r ≤ enorm inp) ∧
    (∀ r ∈ faceRatios inp, r ≤ enorm inp) ∧
    (enorm inp = 0 ∨ enorm inp ∈ cellRatios inp ∨ enorm inp ∈ faceRatios inp) := by
  unfold enorm
  refine ⟨?_, ?_, ?_⟩
  · intro r hr
    exact le_trans (mem_le_foldl_max _ 0 r hr) (le_max_right _ _)
  · intro r hr
    exact le_trans (mem_le_foldl_max _ 0 r hr) (le_max_left _ _)
  · rcases max_choice ((faceRatios inp).foldl max 0) ((cellRatios inp).foldl max 0)
      with h | h
    · rw [h]
      rcases foldl_max_eq_or_mem (faceRatios inp) 0 with h2 | h2
      · exact Or.inl h2
      · exact Or.inr (Or.inr h2)
    · rw [h]
      rcases foldl_max_eq_or_mem (cellRatios inp) 0 with h2 | h2
      · exact Or.inl h2
      · exact Or.inr (Or.inl h2)

/-- Witness for C6: on `wEnorm` the single cell ratio is 1, and 1 bounds
the returned error norm from below. -/
theorem enorm_is_max_witness : (1 : ℚ) ≤ enorm wEnorm := by
  refine (enorm_is_max wEnorm).1 1 ?_
  norm_num [cellRatios, zipWith3, wEnorm]

/-- C7: the admissibility check returns false exactly when some
primary-unknown entry (over cells and, when present, faces) is below
-1e9 or above 1e8; the tracked diagnostic extrema bound every entry. -/
theorem isAdmissible_characterization (inp : AdmissibleInput) :
    (isAdmissible inp = false ↔
      ∃ p ∈ allUnknowns inp, p < -(10 ^ 9) ∨ 10 ^ 8 < p) ∧
    (∀ p ∈ allUnknowns inp, admMin inp ≤ p ∧ p ≤ admMax inp) := by
  refine ⟨?_, admBounds inp⟩
  unfold isAdmissible
  constructor
  · intro h
    by_cases hc : admMin inp < -(10 ^ 9) ∨ admMax inp > 10 ^ 8
    · rcases hc with hc | hc
      · obtain ⟨x, hx, hlt⟩ := (admMin_lt_iff inp).mp hc
        exact ⟨x, hx, Or.inl hlt⟩
      · obtain ⟨x, hx, hgt⟩ := (admMax_gt_iff inp).mp hc
        exact ⟨x, hx, Or.inr hgt⟩
    · rw [if_neg hc] at h
      exact Bool.noConfusion h
  · rintro ⟨x, hx, hout⟩
    have hc : admMin inp < -(10 ^ 9) ∨ admMax inp > 10 ^ 8 := by
      rcases hout with h | h
      · exact Or.inl ((admMin_lt_iff inp).mpr ⟨x, hx, h⟩)
      · exact Or.inr ((admMax_gt_iff inp).mpr ⟨x, hx, h⟩)
    rw [if_pos hc]

/-- Witness for C7: the iterate with a cell at -2e9 is rejected, and the
tracked extrema bound the entry 5. -/
theorem isAdmissible_characterization_witness :
    isAdmissible wAdm = false ∧ admMin wAdm ≤ 5 ∧ 5 ≤ admMax wAdm := by
  refine ⟨(isAdmissible_characterization wAdm).1.mpr
    ⟨-(2 * 10 ^ 9), by norm_num [allUnknowns, wAdm], Or.inl (by norm_num)⟩, ?_⟩
  exact (isAdmissible_characterization wAdm).2 5 (by norm_num [allUnknowns, wAdm])

end ATS
